import Mathlib

/-!
Verification development for the backtest execution engine of the
portfolio-management repository.

The transaction-cost model (`src/tcost.py`) is embedded over the real
numbers because it uses `math.sqrt`.  The backtest engine
(`src/backtest/engine.py`) carries only field arithmetic (`+ - * / max min
abs`), so it is embedded over the rationals, which keeps every engine
definition executable and concrete evaluations provable by `simp` /
`norm_num`.  Python float literals such as `1e-9`, `1e12` and `1e-12` are
written as the exact rationals they denote.
-/

namespace PortfolioBacktest

/-- Python's `str.lower()`, character-wise (the cost model only ever
receives ASCII side tags `"buy"` / `"sell"`). -/
def pyLower (s : String) : String := String.mk (s.data.map Char.toLower)

/-! ## Cost model: `src/tcost.py` -/

noncomputable section TCost

/-- `_bps` (tcost.py line 5): basis points to a fraction. -/
def bpsFrac (x : ℝ) : ℝ := x / 10000

/-- `estimate_spread_bps` (tcost.py lines 8-12): relative bid-ask spread in
bps, `0` if either side is non-positive. -/
def estimate_spread_bps (bid ask : ℝ) : ℝ :=
  if bid ≤ 0 ∨ ask ≤ 0 then 0
  else 20000 * (ask - bid) / (ask + bid)

/-- `impact_bps` (tcost.py lines 14-18): square-root impact,
`impact_coeff * sqrt(max(1e-9, notional/10000))`, `0` if `notional ≤ 0`. -/
def impact_bps (notional_usd impact_coeff : ℝ) : ℝ :=
  if notional_usd ≤ 0 then 0
  else impact_coeff * Real.sqrt (max (1 / 1000000000) (notional_usd / 10000))

/-- `effective_fill_price` (tcost.py lines 20-35): expected market fill
price; total cost in bps is half the spread plus explicit slippage plus
impact plus the taker fee; buys marked up from mid, sells marked down;
returns `0` when `mid ≤ 0`. -/
def effective_fill_price (side : String) (mid bid ask notional_usd
    taker_fee_bps slippage_bps impact_coeff : ℝ) : ℝ :=
  let spr := estimate_spread_bps bid ask
  let imp := impact_bps notional_usd impact_coeff
  let total_bps := spr / 2 + slippage_bps + imp + taker_fee_bps
  if mid ≤ 0 then 0
  else if pyLower side = "buy" then mid * (1 + bpsFrac total_bps)
  else mid * (1 - bpsFrac total_bps)

/-- `BacktestEngine._apply_fees_slippage` (engine.py lines 244-246),
rendered over ℝ so it can be compared with the cost model: the engine marks
the reference price up (buys) or down (sells) by
`(fee_bps + slippage_bps)/10000` and by nothing else. -/
def applyFeesSlippageR (fee_bps slippage_bps px : ℝ) (side : String) : ℝ :=
  let bps := (fee_bps + slippage_bps) / 10000
  if side = "buy" then px * (1 + bps) else px * (1 - bps)

end TCost

/-! ## Backtest engine data model: `src/backtest/engine.py` -/

/-- `FillWhen` (engine.py lines 25-27). -/
inductive FillWhen
  | close
  | next_open
deriving DecidableEq

/-- `ExecModel` (engine.py lines 29-33). -/
structure ExecModel where
  fee_bps : ℚ
  slippage_bps : ℚ
  fill_when : FillWhen
deriving DecidableEq

/-- `RiskModel` (engine.py lines 35-41). -/
structure RiskModel where
  initial_cash : ℚ
  risk_per_trade : ℚ
  max_leverage : ℚ
  max_positions : ℕ
  min_notional : ℚ
deriving DecidableEq

/-- `BTConfig` (engine.py lines 43-55), the fields the engine's fill and
management logic reads (products/granularity/date range live in the data
portal's inputs). -/
structure BTConfig where
  exec_model : ExecModel
  risk_model : RiskModel
  enable_trailing : Bool
  trail_atr_mult : ℚ
  breakeven_after_R : ℚ
deriving DecidableEq

/-- `Position` (engine.py lines 174-184); `opened_ts` is the step's
timestamp, encoded as a natural number. -/
structure Position where
  product : String
  side : String
  qty : ℚ
  entry_px : ℚ
  stop_px : ℚ
  target_px : ℚ
  atr : ℚ
  name : String
  opened_ts : ℕ
deriving DecidableEq

/-- `Portfolio` (engine.py lines 186-191): cash, the by-product position
dict (an insertion-ordered association list, as in Python), cumulative
turnover.  The cached `equity` attribute is the value `valuation` returns
and is not duplicated in the state. -/
structure Portfolio where
  cash : ℚ
  positions : List (String × Position)
  turnover : ℚ
deriving DecidableEq

/-- `positions.get(p)` / `p in positions`: dict lookup. -/
def lookupPos (ps : List (String × Position)) (p : String) : Option Position :=
  (ps.find? (fun q => q.1 == p)).map (fun q => q.2)

/-- `del positions[p]` / `positions.pop(p, None)`: dict removal. -/
def erasePos (ps : List (String × Position)) (p : String) : List (String × Position) :=
  ps.filter (fun q => !(q.1 == p))

/-- `positions[p] = pos`: dict assignment (replaces in place, else
appends, matching Python's insertion-ordered dict). -/
def insertPos : List (String × Position) → String → Position → List (String × Position)
  | [], p, pos => [(p, pos)]
  | q :: qs, p, pos => if q.1 == p then (p, pos) :: qs else q :: insertPos qs p pos

/-- `Portfolio.valuation` (engine.py lines 193-199): cash plus each open
position marked at `prices.get(product, entry_px)`. -/
def valuation (port : Portfolio) (prices : String → Option ℚ) : ℚ :=
  port.cash +
    (port.positions.map (fun q => q.2.qty * ((prices q.2.product).getD q.2.entry_px))).sum

/-- `BacktestEngine._apply_fees_slippage` (engine.py lines 244-246) over
ℚ, as the engine's state machine uses it. -/
def applyFeesSlippage (cfg : BTConfig) (px : ℚ) (side : String) : ℚ :=
  let bps := (cfg.exec_model.fee_bps + cfg.exec_model.slippage_bps) / 10000
  if side = "buy" then px * (1 + bps) else px * (1 - bps)

/-- `BacktestEngine._size_position` (engine.py lines 248-252): risk-budget
sizing with the per-unit risk floored at `1e-9`. -/
def sizePosition (cfg : BTConfig) (equity entry stop : ℚ) : ℚ :=
  let risk_dollar := equity * cfg.risk_model.risk_per_trade
  let per_unit_risk := max (1 / 1000000000) (entry - stop)
  max 0 (risk_dollar / per_unit_risk)

/-- `BacktestEngine._update_trailing` (engine.py lines 254-264): ratchet
the stop to `max(stop, px - trail_atr_mult * atr)`, then breakeven once
`r_gain ≥ breakeven_after_R`; `pm_rebalance` holdings and runs with
trailing disabled are left untouched. -/
def updateTrailing (cfg : BTConfig) (pos : Position) (px : ℚ) : Position :=
  if pos.name = "pm_rebalance" then pos
  else if cfg.enable_trailing = false then pos
  else
    let trail := cfg.trail_atr_mult * pos.atr
    let ns := max pos.stop_px (px - trail)
    let r_gain := (px - pos.entry_px) / max (1 / 1000000000) (pos.entry_px - pos.stop_px)
    let ns2 := if cfg.breakeven_after_R ≤ r_gain then max ns pos.entry_px else ns
    { pos with stop_px := ns2 }

/-- An `entry` signal's payload (engine.py run step 4 reads these keys). -/
structure EntrySignal where
  name : String
  product_id : String
  side : String
  entry : ℚ
  stop : ℚ
  target : ℚ
  atr : ℚ
deriving DecidableEq

/-- The gate on engine.py line 386: an entry is skipped when the asset
already holds a position whose strategy tag is not `"pm_rebalance"`. -/
def entryBlocked (port : Portfolio) (p : String) : Bool :=
  match lookupPos port.positions p with
  | some pos => !(pos.name == "pm_rebalance")
  | none => false

/-- One iteration of run step 4 (engine.py lines 382-407): apply an entry
signal.  `raw_px` is the reference price `_price_at(p, t_idx, "entry")`
returned for this signal and `prices_now` the close-price dict used for
the valuation; both are data the loop reads from the portal. -/
def applyEntrySignal (cfg : BTConfig) (port : Portfolio) (s : EntrySignal)
    (raw_px : ℚ) (prices_now : String → Option ℚ) (ts : ℕ) : Portfolio :=
  if ¬ s.side = "buy" then port
  else if entryBlocked port s.product_id then port
  else
    let fill_px := applyFeesSlippage cfg raw_px "buy"
    let eq_now := valuation port prices_now
    let qty := sizePosition cfg eq_now fill_px s.stop
    let notional := qty * fill_px
    if notional < cfg.risk_model.min_notional ∨ qty ≤ 0 then port
    else if port.cash < notional then port
    else
      { cash := port.cash - notional,
        positions := insertPos port.positions s.product_id
          ⟨s.product_id, "long", qty, fill_px, s.stop, s.target, s.atr, s.name, ts⟩,
        turnover := port.turnover + |notional| }

/-- One iteration of run step 1's closing loop (engine.py lines 358-366):
close the position held on `p` at threshold price `fill_px` (stop or
target), crediting the sell-side notional after fees. -/
def applyBracketExit (cfg : BTConfig) (port : Portfolio) (p : String) (fill_px : ℚ) :
    Portfolio :=
  match lookupPos port.positions p with
  | none => port
  | some pos =>
    let px_eff := applyFeesSlippage cfg fill_px "sell"
    let notional := pos.qty * px_eff
    { cash := port.cash + notional,
      positions := erasePos port.positions p,
      turnover := port.turnover + |notional| }

/-- One iteration of the final-liquidation loop (engine.py lines 417-424). -/
def liquidateOne (cfg : BTConfig) (prices_now : String → ℚ) (acc : Portfolio)
    (q : String × Position) : Portfolio :=
  let px_eff := applyFeesSlippage cfg (prices_now q.1) "sell"
  let notional := q.2.qty * px_eff
  { cash := acc.cash + notional,
    positions := erasePos acc.positions q.1,
    turnover := acc.turnover + |notional| }

/-- Final liquidation (engine.py lines 415-424): every remaining position
is sold at the close price after fees; the iteration list is the snapshot
`list(positions.items())` taken before the loop. -/
def finalLiquidation (cfg : BTConfig) (port : Portfolio) (prices_now : String → ℚ) :
    Portfolio :=
  port.positions.foldl (liquidateOne cfg prices_now) port

/-- `pm_qty[p]` (engine.py lines 277-280): total quantity of the
`pm_rebalance` position keyed on `p` (the dict holds at most one position
per key, so the sum has at most one term). -/
def pmQtyOf (port : Portfolio) (p : String) : ℚ :=
  ((port.positions.filter (fun q => q.1 == p && q.2.name == "pm_rebalance")).map
    (fun q => q.2.qty)).sum

/-- One iteration of the sell-assets-not-in-target loop
(engine.py lines 286-299): if `p` is not targeted and holds pm quantity,
sell the entire `pm_rebalance` position at the sell-side fill price.
`pmQty` is the dict computed before the loop (its entries for sold assets
are zeroed in the source but never read again). -/
def sellAllStep (cfg : BTConfig) (fillRaw : String → ℚ) (targetKeys : List String)
    (pmQty : String → ℚ) (port : Portfolio) (p : String) : Portfolio :=
  if p ∉ targetKeys ∧ 0 < pmQty p then
    match lookupPos port.positions p with
    | some pos =>
      if pos.name = "pm_rebalance" then
        let fill_px := applyFeesSlippage cfg (fillRaw p) "sell"
        let notional := pos.qty * fill_px
        { cash := port.cash + notional,
          positions := erasePos port.positions p,
          turnover := port.turnover + |notional| }
      else port
    | none => port
  else port

/-- One iteration of the adjust-towards-target loop
(engine.py lines 302-340) for the pair `(p, target_notional)`:
buy the shortfall — with the quantity capped at `cash / fill_px` — or sell
the excess, skipping differences and fills below the minimum notional.
`pmNotional` is the pre-loop dict of current pm notionals. -/
def adjustStep (cfg : BTConfig) (fillRaw : String → ℚ) (pmNotional : String → ℚ)
    (ts : ℕ) (port : Portfolio) (pt : String × ℚ) : Portfolio :=
  let p := pt.1
  let diff := pt.2 - pmNotional p
  if |diff| < cfg.risk_model.min_notional then port
  else if 0 < diff then
    let fill_px := applyFeesSlippage cfg (fillRaw p) "buy"
    let qty := max 0 (min (diff / fill_px) (port.cash / fill_px))
    if qty * fill_px < cfg.risk_model.min_notional ∨ qty ≤ 0 then port
    else
      let positions2 :=
        match lookupPos port.positions p with
        | some pos =>
          if pos.name = "pm_rebalance" then
            insertPos port.positions p { pos with qty := pos.qty + qty }
          else
            insertPos port.positions p
              ⟨p, "long", qty, fill_px, 0, 1000000000000, 0, "pm_rebalance", ts⟩
        | none =>
          insertPos port.positions p
            ⟨p, "long", qty, fill_px, 0, 1000000000000, 0, "pm_rebalance", ts⟩
      { cash := port.cash - qty * fill_px,
        positions := positions2,
        turnover := port.turnover + |qty * fill_px| }
  else
    let qty_have :=
      match lookupPos port.positions p with
      | some pos => if pos.name = "pm_rebalance" then pos.qty else 0
      | none => 0
    if qty_have ≤ 0 then port
    else
      let fill_px := applyFeesSlippage cfg (fillRaw p) "sell"
      let qty := min qty_have (|diff| / fill_px)
      if qty * fill_px < cfg.risk_model.min_notional ∨ qty ≤ 0 then port
      else
        let positions2 :=
          match lookupPos port.positions p with
          | some pos =>
            if pos.qty - qty ≤ 1 / 1000000000000 then erasePos port.positions p
            else insertPos port.positions p { pos with qty := pos.qty - qty }
          | none => port.positions
        { cash := port.cash + qty * fill_px,
          positions := positions2,
          turnover := port.turnover + |qty * fill_px| }

/-- `BacktestEngine._apply_rebalance_signal` (engine.py lines 266-340) for
a signal carrying `target_weights` `tw`.  `closePx` is the close-price
column at the current step and `fillRaw` the reference price
`_price_at(p, t_idx, "entry")`, both read from the portal.  Targets are
`equity × weight` for targeted assets among the configured products;
assets no longer targeted are sold entirely; then each targeted asset is
adjusted towards its target notional. -/
def applyRebalanceSignal (cfg : BTConfig) (port : Portfolio) (tw : List (String × ℚ))
    (products : List String) (closePx : String → ℚ) (fillRaw : String → ℚ)
    (ts : ℕ) : Portfolio :=
  let pricesNow : String → Option ℚ := fun p =>
    if p ∈ products then some (closePx p) else none
  let equity := valuation port pricesNow
  let pmQty : String → ℚ := fun p => pmQtyOf port p
  let pmNotional : String → ℚ := fun p => pmQty p * closePx p
  let targetNotional : List (String × ℚ) :=
    (tw.filter (fun w => products.contains w.1)).map (fun w => (w.1, equity * w.2))
  let targetKeys := targetNotional.map (fun w => w.1)
  let port1 := products.foldl (sellAllStep cfg fillRaw targetKeys pmQty) port
  targetNotional.foldl (adjustStep cfg fillRaw pmNotional ts) port1

/-! ## Data portal: `DataPortal._load` and `BacktestEngine._price_at` -/

/-- One OHLCV row; the aligned frames keep exactly the columns
`open, high, low, close, volume` (engine.py line 71).  `opn` stands for
the `open` column (`open` is a Lean keyword). -/
structure Bar where
  opn : ℚ
  high : ℚ
  low : ℚ
  close : ℚ
  volume : ℚ
deriving DecidableEq

/-- Column access `w[field]` on an aligned frame: any field other than the
five retained columns raises `KeyError`. -/
def barField (b : Bar) (field : String) : Except String ℚ :=
  if field = "open" then .ok b.opn
  else if field = "high" then .ok b.high
  else if field = "low" then .ok b.low
  else if field = "close" then .ok b.close
  else if field = "volume" then .ok b.volume
  else .error "KeyError"

/-- `len(self.portal.time_index())` (engine.py lines 88-89): the length of
the first frame's index (all frames are aligned). -/
def timeIndexLen (portal : List (String × List Bar)) : ℕ :=
  match portal with
  | [] => 0
  | q :: _ => q.2.length

/-- `window(product, t_idx)[...].iloc[-1]` (engine.py lines 91-92): the
last row of the prefix through `t_idx`; `KeyError` for an unknown product,
`IndexError` for an empty window. -/
def windowLast (portal : List (String × List Bar)) (product : String) (tIdx : ℕ) :
    Except String Bar :=
  match (portal.find? (fun q => q.1 == product)).map (fun q => q.2) with
  | none => .error "KeyError"
  | some rows =>
    match (rows.take (tIdx + 1)).getLast? with
    | none => .error "IndexError"
    | some b => .ok b

/-- `BacktestEngine._price_at` (engine.py lines 237-242): under
`NEXT_OPEN` with `field = "entry"` and a next bar available, the next
bar's open; otherwise the window's last row's `field` column. -/
def priceAt (cfg : BTConfig) (portal : List (String × List Bar)) (product : String)
    (tIdx : ℕ) (field : String) : Except String ℚ :=
  match windowLast portal product tIdx with
  | .error e => .error e
  | .ok wlast =>
    if cfg.exec_model.fill_when = FillWhen.next_open ∧ field = "entry" ∧
        tIdx + 1 < timeIndexLen portal then
      match windowLast portal product (tIdx + 1) with
      | .error e => .error e
      | .ok w2 => barField w2 "open"
    else barField wlast field

/-- The fetch-and-filter loop of `DataPortal._load`
(engine.py lines 66-72): assets whose fetched frame is empty are dropped. -/
def fetchedNonempty (fetched : List (String × List (ℕ × Bar))) :
    List (String × List (ℕ × Bar)) :=
  fetched.filter (fun q => !q.2.isEmpty)

/-- `idx.intersection(d.index)`: the timestamps of `acc` also present in
`other`, keeping `acc`'s (ascending) order. -/
def idxIntersection (acc other : List ℕ) : List ℕ :=
  acc.filter (fun t => other.contains t)

/-- The index-intersection loop of `DataPortal._load`
(engine.py lines 75-77). -/
def commonIdx : List (List ℕ) → List ℕ
  | [] => []
  | i :: is => is.foldl idxIntersection i

/-- `df.reindex(idx).dropna()` for `idx` a sublist of the frame's own
index: the rows at the timestamps of `idx`, in `idx` order. -/
def reindexDropna (rows : List (ℕ × Bar)) (idx : List ℕ) : List (ℕ × Bar) :=
  idx.filterMap (fun t => (rows.find? (fun r => r.1 == t)).map (fun r => (t, r.2)))

/-- The start/end clipping of `DataPortal._load` (engine.py lines 80-83). -/
def clipIdx (idx : List ℕ) (start stop : Option ℕ) : List ℕ :=
  let idx1 := match start with
    | none => idx
    | some s => idx.filter (fun t => s ≤ t)
  match stop with
  | none => idx1
  | some e => idx1.filter (fun t => t ≤ e)

/-- `DataPortal._load` (engine.py lines 65-86) over already-fetched data
(`fetched` maps each requested product to its fetched rows, `[]` for an
empty or missing fetch): drop empty frames, raise
`RuntimeError("No price series loaded.")` when nothing remains, intersect
the per-asset indices, reindex every frame to the intersection, clip to
the optional start/end range and reindex again, and return the frames.  No
check is made on the intersection itself. -/
def loadPortal (fetched : List (String × List (ℕ × Bar))) (start stop : Option ℕ) :
    Except String (List (String × List (ℕ × Bar))) :=
  let dfs := fetchedNonempty fetched
  if dfs.isEmpty then .error "No price series loaded."
  else
    let idx := commonIdx (dfs.map (fun q => q.2.map (fun r => r.1)))
    let dfs1 := dfs.map (fun q => (q.1, reindexDropna q.2 idx))
    let idx2 := clipIdx idx start stop
    .ok (dfs1.map (fun q => (q.1, reindexDropna q.2 idx2)))

/-! ## Metrics: `_drawdown_curve` and `compute_metrics` -/

/-- The values the metrics code distinguishes: a finite float (modelled as
an exact rational), `np.inf`, and `np.nan`. -/
inductive PyVal
  | num (q : ℚ)
  | pinf
  | nan
deriving DecidableEq

/-- Python's `round(x, 3)` (half-to-even on the scaled value), over ℚ. -/
def pyRound3 (x : ℚ) : ℚ :=
  let y := x * 1000
  let f : ℤ := ⌊y⌋
  let r := y - f
  let n : ℤ :=
    if r < 1/2 then f
    else if 1/2 < r then f + 1
    else if f % 2 = 0 then f else f + 1
  (n : ℚ) / 1000

/-- The drawdown minimum of `_drawdown_curve` (engine.py lines 202-205)
for the equity series `x :: xs`: `min(series / series.cummax() - 1)`. -/
def drawdownMax (x : ℚ) (xs : List ℚ) : ℚ :=
  let dd := List.zipWith (fun s m => s / m - 1) (x :: xs) (List.scanl max x xs)
  match dd with
  | [] => 0
  | d :: ds => ds.foldl min d

/-- The Calmar value of `_drawdown_curve` (engine.py line 206):
`(last/first - 1)/abs(max_dd)` when `max_dd < 0`, else `np.inf`. -/
def drawdownCalmar (x : ℚ) (xs : List ℚ) : PyVal :=
  let lastv := xs.getLastD x
  let mdd := drawdownMax x xs
  if mdd < 0 then .num ((lastv / x - 1) / |mdd|) else .pinf

/-- The `"Calmar"` entry of the dict `compute_metrics` returns
(engine.py lines 209-221): `round(calmar, 3)` when the Calmar value from
`_drawdown_curve` is finite, otherwise `np.nan`. -/
def metricsCalmar (x : ℚ) (xs : List ℚ) : PyVal :=
  match drawdownCalmar x xs with
  | .num q => .num (pyRound3 q)
  | _ => .nan

/-! ## Concrete fixtures used by counterexamples and witnesses -/

/-- A generic bar (open 1, high 2, low 3, close 4, volume 5). -/
def barW : Bar := ⟨1, 2, 3, 4, 5⟩

/-- Zero-fee config, next-open fills, 1% risk per trade, min notional 25. -/
def cfgZeroFees : BTConfig :=
  ⟨⟨0, 0, FillWhen.next_open⟩, ⟨10000, 1/100, 1, 12, 25⟩, true, 1, 1⟩

/-- Default fees (8 bps + 1.5 bps), same-bar-close fill policy. -/
def cfgCloseFill : BTConfig :=
  ⟨⟨8, 3/2, FillWhen.close⟩, ⟨10000, 1/100, 1, 12, 25⟩, true, 1, 1⟩

/-- Zero-fee config with 10% risk per trade. -/
def cfgRpt10 : BTConfig :=
  ⟨⟨0, 0, FillWhen.next_open⟩, ⟨10000, 1/10, 1, 12, 25⟩, true, 1, 1⟩

/-- Cash 100 plus a bracket position on `"B"` worth 100 at close 10. -/
def portBracketB : Portfolio :=
  ⟨100, [("B", ⟨"B", "long", 10, 10, 5, 20, 1, "triple_ma", 0⟩)], 0⟩

/-- Close / reference prices: `"A"` at 1, anything else at 10. -/
def pxAB : String → ℚ := fun p => if p = "A" then 1 else 10

/-- Cash 1000 plus a `pm_rebalance` holding of 5 units of `"A"`. -/
def portPMA : Portfolio :=
  ⟨1000, [("A", ⟨"A", "long", 5, 100, 0, 1000000000000, 0, "pm_rebalance", 0⟩)], 0⟩

/-- Cash 1000 plus a bracket position of 5 units of `"A"` from `triple_ma`. -/
def portBrA : Portfolio :=
  ⟨1000, [("A", ⟨"A", "long", 5, 100, 80, 120, 1, "triple_ma", 0⟩)], 0⟩

/-- An entry signal on `"A"`: entry 100, stop 50, target 200, ATR 10. -/
def sigA : EntrySignal := ⟨"donchian_breakout", "A", "buy", 100, 50, 200, 10⟩

/-- Close-price dict holding only `"A"` at 100. -/
def pricesA : String → Option ℚ := fun p => if p = "A" then some 100 else none

/-- A bracket position with ATR 0 (stop 90, entry 100). -/
def posFlatATR : Position := ⟨"A", "long", 1, 100, 90, 130, 0, "triple_ma", 0⟩

/-- A bracket position with ATR 2 (stop 90, entry 100). -/
def posATR2 : Position := ⟨"A", "long", 1, 100, 90, 130, 2, "triple_ma", 0⟩

/-- A portfolio holding cash only. -/
def portCashOnly : Portfolio := ⟨10000, [], 0⟩

/-- An entry signal whose stop equals the zero-fee fill price 100. -/
def sigStop100 : EntrySignal := ⟨"triple_ma", "A", "buy", 100, 100, 130, 2⟩

/-- A one-product, one-bar portal. -/
def portalA : List (String × List Bar) := [("A", [barW])]

/-- Close-price dict over products `["A", "B"]` marked with `pxAB`. -/
def pricesAB : String → Option ℚ := fun p =>
  if p ∈ (["A", "B"] : List String) then some (pxAB p) else none

/-- The inductive invariant threaded through the engine's fill
operations: non-negative cash and non-negative position quantities. -/
def cashQtyInv (port : Portfolio) : Prop :=
  0 ≤ port.cash ∧ ∀ q ∈ port.positions, 0 ≤ q.2.qty

/-! ## Shared helper lemmas -/

/-- A successful dict lookup returns an entry of the list. -/
theorem lookupPos_eq_some_mem {ps : List (String × Position)} {p : String}
    {pos : Position} (h : lookupPos ps p = some pos) : (p, pos) ∈ ps := by
  unfold lookupPos at h
  cases hf : ps.find? (fun q => q.1 == p) with
  | none => rw [hf] at h; exact absurd h (by simp)
  | some q =>
    rw [hf] at h
    have hq : q ∈ ps := List.mem_of_find?_eq_some hf
    have hp := List.find?_some hf
    have h1 : q.1 = p := by
      have hp2 : (q.1 == p) = true := hp
      exact eq_of_beq hp2
    obtain rfl : q.2 = pos := by
      simpa using h
    rw [← h1]
    exact hq

/-- Membership after dict removal implies prior membership. -/
theorem mem_of_mem_erasePos {ps : List (String × Position)} {p : String}
    {q : String × Position} (h : q ∈ erasePos ps p) : q ∈ ps :=
  List.mem_of_mem_filter h

/-- Membership after dict assignment: an old entry or the new one. -/
theorem mem_insertPos {ps : List (String × Position)} {p : String} {pos : Position}
    {q : String × Position} (h : q ∈ insertPos ps p pos) : q ∈ ps ∨ q = (p, pos) := by
  induction ps with
  | nil =>
    unfold insertPos at h
    simp at h
    exact Or.inr h
  | cons r rs ih =>
    unfold insertPos at h
    by_cases hr : (r.1 == p) = true
    · rw [if_pos hr] at h
      rcases List.mem_cons.mp h with h1 | h1
      · exact Or.inr h1
      · exact Or.inl (List.mem_cons_of_mem r h1)
    · rw [if_neg hr] at h
      rcases List.mem_cons.mp h with h1 | h1
      · exact Or.inl (h1 ▸ List.mem_cons_self r rs)
      · rcases ih h1 with h2 | h2
        · exact Or.inl (List.mem_cons_of_mem r h2)
        · exact Or.inr h2

/-- The engine's sell-side price is non-negative whenever the reference
price is non-negative and the total fee-plus-slippage rate is at most
100%. -/
theorem applyFeesSlippage_sell_nonneg (cfg : BTConfig) (px : ℚ)
    (hpx : 0 ≤ px)
    (hbps : (cfg.exec_model.fee_bps + cfg.exec_model.slippage_bps) / 10000 ≤ 1) :
    0 ≤ applyFeesSlippage cfg px "sell" := by
  unfold applyFeesSlippage
  rw [if_neg (by decide : ¬ ("sell" : String) = "buy")]
  have : (0 : ℚ) ≤ 1 - (cfg.exec_model.fee_bps + cfg.exec_model.slippage_bps) / 10000 := by
    linarith
  exact mul_nonneg hpx this

/-- The engine's buy-side price is positive whenever the reference price
is positive and the total fee-plus-slippage rate is non-negative. -/
theorem applyFeesSlippage_buy_pos (cfg : BTConfig) (px : ℚ)
    (hpx : 0 < px)
    (hbps : 0 ≤ (cfg.exec_model.fee_bps + cfg.exec_model.slippage_bps) / 10000) :
    0 < applyFeesSlippage cfg px "buy" := by
  unfold applyFeesSlippage
  rw [if_pos rfl]
  have : (0 : ℚ) < 1 + (cfg.exec_model.fee_bps + cfg.exec_model.slippage_bps) / 10000 := by
    linarith
  exact mul_pos hpx this

/-! ## C7: fill-price ordering of the cost model -/

/-- C7: for every `mid > 0` and inputs whose total cost in bps is strictly
positive, the effective buy price exceeds `mid` and the effective sell
price is below `mid`; and for every `mid ≤ 0` the function returns `0` on
either side. -/
theorem effective_fill_price_ordering (mid bid ask notional fee slip coeff : ℝ) :
    (0 < mid →
      0 < estimate_spread_bps bid ask / 2 + slip + impact_bps notional coeff + fee →
      mid < effective_fill_price "buy" mid bid ask notional fee slip coeff ∧
      effective_fill_price "sell" mid bid ask notional fee slip coeff < mid) ∧
    (mid ≤ 0 →
      effective_fill_price "buy" mid bid ask notional fee slip coeff = 0 ∧
      effective_fill_price "sell" mid bid ask notional fee slip coeff = 0) := by
  constructor
  · intro hm hc
    unfold effective_fill_price bpsFrac
    rw [if_neg (not_le.mpr hm), if_neg (not_le.mpr hm)]
    rw [if_pos (show pyLower "buy" = "buy" by decide)]
    rw [if_neg (show ¬ pyLower "sell" = "buy" by decide)]
    constructor
    · nlinarith [mul_pos hm hc]
    · nlinarith [mul_pos hm hc]
  · intro hm
    unfold effective_fill_price
    rw [if_pos hm, if_pos hm]
    exact ⟨rfl, rfl⟩

/-- Witness for C7 at mid 100, empty book (zero spread), zero notional
(zero impact), taker fee 8 bps. -/
theorem effective_fill_price_ordering_wit :
    100 < effective_fill_price "buy" 100 0 0 0 8 0 (3/2) ∧
    effective_fill_price "sell" 100 0 0 0 8 0 (3/2) < 100 := by
  refine (effective_fill_price_ordering 100 0 0 0 8 0 (3/2)).1 (by norm_num) ?_
  unfold estimate_spread_bps impact_bps
  norm_num

/-! ## C2: the engine's fill prices against the cost model -/

/-- C2 counterexample: with a real spread (bid 99 / ask 101) and a real
notional (10000), the price the engine charges for a buy
(`_apply_fees_slippage`, fee 8 bps + slippage 1.5 bps) differs from the
cost model's `effective_fill_price` at the same fee and slippage: the
engine never adds the half-spread or the impact term, so the engine does
not route its fills through `effective_fill_price`. -/
theorem engine_fill_price_ne_tcost_cex :
    applyFeesSlippageR 8 (3/2) 100 "buy" = 20019/200 ∧
    effective_fill_price "buy" 100 99 101 10000 8 (3/2) (3/2) = 10111/100 ∧
    (20019 : ℝ)/200 ≠ 10111/100 := by
  refine ⟨?_, ?_, by norm_num⟩
  · unfold applyFeesSlippageR
    rw [if_pos rfl]
    norm_num
  · unfold effective_fill_price estimate_spread_bps impact_bps bpsFrac
    rw [if_neg (by norm_num : ¬ ((99 : ℝ) ≤ 0 ∨ (101 : ℝ) ≤ 0))]
    rw [if_neg (by norm_num : ¬ ((10000 : ℝ) ≤ 0))]
    rw [if_neg (by norm_num : ¬ ((100 : ℝ) ≤ 0))]
    rw [if_pos (show pyLower "buy" = "buy" by decide)]
    have h1 : max ((1 : ℝ) / 1000000000) (10000 / 10000) = 1 := by norm_num
    rw [h1, Real.sqrt_one]
    norm_num

/-- C2 amended: every engine fill price is produced by
`_apply_fees_slippage`, which agrees with the cost model's
`effective_fill_price` exactly in the degenerate case where the half-spread
term and the impact term both vanish (for example an empty book and
non-positive notional); it omits those two terms in general. -/
theorem applyFeesSlippage_eq_tcost_no_spread_impact
    (fee slip px bid ask notional coeff : ℝ) (side : String)
    (hside : side = "buy" ∨ side = "sell")
    (hpx : 0 < px)
    (hspr : estimate_spread_bps bid ask = 0)
    (himp : impact_bps notional coeff = 0) :
    applyFeesSlippageR fee slip px side =
      effective_fill_price side px bid ask notional fee slip coeff := by
  unfold applyFeesSlippageR effective_fill_price bpsFrac
  rw [hspr, himp, if_neg (not_le.mpr hpx)]
  rcases hside with h | h <;> subst h
  · rw [if_pos rfl, if_pos (show pyLower "buy" = "buy" by decide)]
    ring
  · rw [if_neg (by decide : ¬ ("sell" : String) = "buy"),
      if_neg (show ¬ pyLower "sell" = "buy" by decide)]
    ring

/-- Witness for the amended C2 at fee 8 bps, slippage 1.5 bps, price 100,
an empty book and zero notional. -/
theorem applyFeesSlippage_eq_tcost_no_spread_impact_wit :
    applyFeesSlippageR 8 (3/2) 100 "buy" =
      effective_fill_price "buy" 100 0 0 0 8 (3/2) (3/2) := by
  refine applyFeesSlippage_eq_tcost_no_spread_impact 8 (3/2) 100 0 0 0 (3/2) "buy"
    (Or.inl rfl) (by norm_num) ?_ ?_
  · unfold estimate_spread_bps
    norm_num
  · unfold impact_bps
    norm_num

/-! ## C6: monotone trailing stop -/

/-- C6: for a long bracket position with trailing enabled, the per-step
management update never lowers the stop: the new stop is at least the old
stop, at least the ratchet level `px - trail_atr_mult * atr`, and at least
the entry price once the unrealized gain in R-multiples reaches
`breakeven_after_R`. -/
theorem trailing_stop_monotone (cfg : BTConfig) (pos : Position) (px : ℚ)
    (henable : cfg.enable_trailing = true)
    (hname : ¬ pos.name = "pm_rebalance")
    (hside : pos.side = "long") :
    pos.stop_px ≤ (updateTrailing cfg pos px).stop_px ∧
    px - cfg.trail_atr_mult * pos.atr ≤ (updateTrailing cfg pos px).stop_px ∧
    (cfg.breakeven_after_R ≤
        (px - pos.entry_px) / max (1 / 1000000000) (pos.entry_px - pos.stop_px) →
      pos.entry_px ≤ (updateTrailing cfg pos px).stop_px) := by
  unfold updateTrailing
  rw [if_neg hname, if_neg (by simp [henable])]
  dsimp only
  by_cases hbe : cfg.breakeven_after_R ≤
      (px - pos.entry_px) / max (1 / 1000000000) (pos.entry_px - pos.stop_px)
  · rw [if_pos hbe]
    exact ⟨le_max_of_le_left (le_max_left _ _),
      le_max_of_le_left (le_max_right _ _),
      fun _ => le_max_right _ _⟩
  · rw [if_neg hbe]
    exact ⟨le_max_left _ _, le_max_right _ _, fun hc => absurd hc hbe⟩

/-- Witness for C6: ATR-2 bracket position, price 110, breakeven reached. -/
theorem trailing_stop_monotone_wit :
    posATR2.stop_px ≤ (updateTrailing cfgZeroFees posATR2 110).stop_px ∧
    110 - cfgZeroFees.trail_atr_mult * posATR2.atr ≤
      (updateTrailing cfgZeroFees posATR2 110).stop_px ∧
    posATR2.entry_px ≤ (updateTrailing cfgZeroFees posATR2 110).stop_px := by
  have h := trailing_stop_monotone cfgZeroFees posATR2 110 rfl
    (by simp [posATR2]) rfl
  exact ⟨h.1, h.2.1, h.2.2 (by norm_num [cfgZeroFees, posATR2])⟩

/-! ## C4: zero or negative ATR and trailing -/

/-- C4 counterexample: a bracket position with ATR 0 and stop 90 gets its
stop moved to the current price 100 by the per-step update — trailing is
not disabled and the stop is not left unchanged. -/
theorem zero_atr_stop_changes_cex :
    posFlatATR.atr = 0 ∧ posFlatATR.stop_px = 90 ∧
    (updateTrailing cfgZeroFees posFlatATR 100).stop_px = 100 := by
  norm_num +decide [updateTrailing, cfgZeroFees, posFlatATR]

/-- C4 amended: for an open bracket position with trailing enabled,
ATR ≤ 0 and a non-negative trail multiple, the per-step update still
applies the ratchet `max(stop, px - trail_atr_mult * atr)`: since the
trail distance is non-positive the new stop is at least the current price
(so the position stops out on the same step's exit check); the update does
not leave the stop unchanged and does not treat negative ATR as zero. -/
theorem updateTrailing_nonpos_atr_ratchets (cfg : BTConfig) (pos : Position) (px : ℚ)
    (henable : cfg.enable_trailing = true)
    (hname : ¬ pos.name = "pm_rebalance")
    (hatr : pos.atr ≤ 0)
    (hmult : 0 ≤ cfg.trail_atr_mult) :
    px ≤ (updateTrailing cfg pos px).stop_px ∧
    pos.stop_px ≤ (updateTrailing cfg pos px).stop_px := by
  have htrail : cfg.trail_atr_mult * pos.atr ≤ 0 :=
    mul_nonpos_of_nonneg_of_nonpos hmult hatr
  have hpx : px ≤ px - cfg.trail_atr_mult * pos.atr := by linarith
  unfold updateTrailing
  rw [if_neg hname, if_neg (by simp [henable])]
  dsimp only
  by_cases hbe : cfg.breakeven_after_R ≤
      (px - pos.entry_px) / max (1 / 1000000000) (pos.entry_px - pos.stop_px)
  · rw [if_pos hbe]
    exact ⟨le_max_of_le_left (le_trans hpx (le_max_right _ _)),
      le_max_of_le_left (le_max_left _ _)⟩
  · rw [if_neg hbe]
    exact ⟨le_trans hpx (le_max_right _ _), le_max_left _ _⟩

/-- Witness for the amended C4: ATR-0 position, price 100. -/
theorem updateTrailing_nonpos_atr_ratchets_wit :
    100 ≤ (updateTrailing cfgZeroFees posFlatATR 100).stop_px ∧
    posFlatATR.stop_px ≤ (updateTrailing cfgZeroFees posFlatATR 100).stop_px :=
  updateTrailing_nonpos_atr_ratchets cfgZeroFees posFlatATR 100 rfl
    (by simp [posFlatATR]) (by norm_num [posFlatATR]) (by norm_num [cfgZeroFees])

/-! ## C5: zero risk distance in sizing -/

/-- C5 counterexample: with entry = stop = 100 the guard floors the
per-unit risk at `1e-9`, so `_size_position` returns
`10000 × 1% × 10⁹ = 10¹¹` — an enormous quantity, not 0 — and the
resulting notional `10¹³` is far above the minimum-notional floor, so the
minimum-notional check is not what rejects the signal. -/
theorem sizePosition_zero_risk_cex :
    sizePosition cfgZeroFees 10000 100 100 = 100000000000 ∧
    sizePosition cfgZeroFees 10000 100 100 ≠ 0 ∧
    ¬ sizePosition cfgZeroFees 10000 100 100 * 100 <
        cfgZeroFees.risk_model.min_notional := by
  norm_num [sizePosition, cfgZeroFees]

/-- C5 amended: when the fill price equals the stop price (zero risk
distance), the guarded division returns
`max 0 (equity × risk_per_trade × 10⁹)` rather than 0; whenever equity is
positive, cash is at most equity and
`risk_per_trade × stop × 10⁹ > 1`, the resulting notional exceeds
available cash, so the signal is rejected — by the cash check (or, when
the notional is tiny, the minimum-notional check) — and the portfolio is
unchanged. -/
theorem zero_risk_entry_rejected (cfg : BTConfig) (port : Portfolio) (s : EntrySignal)
    (raw_px : ℚ) (prices : String → Option ℚ) (ts : ℕ)
    (hfill : applyFeesSlippage cfg raw_px "buy" = s.stop)
    (heq : 0 < valuation port prices)
    (hcash : port.cash ≤ valuation port prices)
    (hbig : 1 < cfg.risk_model.risk_per_trade * s.stop * 1000000000) :
    sizePosition cfg (valuation port prices) (applyFeesSlippage cfg raw_px "buy")
        s.stop =
      max 0 (valuation port prices * cfg.risk_model.risk_per_trade * 1000000000) ∧
    applyEntrySignal cfg port s raw_px prices ts = port := by
  have hsz : sizePosition cfg (valuation port prices)
      (applyFeesSlippage cfg raw_px "buy") s.stop =
      max 0 (valuation port prices * cfg.risk_model.risk_per_trade * 1000000000) := by
    unfold sizePosition
    rw [hfill, sub_self, max_eq_left (by norm_num : (0:ℚ) ≤ 1 / 1000000000)]
    dsimp only
    rw [div_eq_mul_inv]
    norm_num [mul_assoc]
  refine ⟨hsz, ?_⟩
  unfold applyEntrySignal
  dsimp only
  split_ifs with h1 h2 h3 h4
  any_goals rfl
  exfalso
  push_neg at h3 h4
  obtain ⟨hmn, hqty⟩ := h3
  rw [hsz] at hqty
  have ha : 0 < valuation port prices * cfg.risk_model.risk_per_trade * 1000000000 := by
    rcases lt_max_iff.mp hqty with h | h
    · exact absurd h (lt_irrefl 0)
    · exact h
  have hqeq : max 0 (valuation port prices * cfg.risk_model.risk_per_trade
      * 1000000000) =
      valuation port prices * cfg.risk_model.risk_per_trade * 1000000000 :=
    max_eq_right (le_of_lt ha)
  rw [hsz, hqeq, hfill] at h4
  have hgt : valuation port prices <
      valuation port prices * cfg.risk_model.risk_per_trade * 1000000000
        * s.stop := by
    nlinarith [mul_pos heq (sub_pos.mpr hbig)]
  linarith

/-- Witness for the amended C5: zero fees, fill price 100 = stop, cash
10000, 1% risk per trade. -/
theorem zero_risk_entry_rejected_wit :
    sizePosition cfgZeroFees (valuation portCashOnly pricesA)
        (applyFeesSlippage cfgZeroFees 100 "buy") sigStop100.stop =
      max 0 (valuation portCashOnly pricesA *
        cfgZeroFees.risk_model.risk_per_trade * 1000000000) ∧
    applyEntrySignal cfgZeroFees portCashOnly sigStop100 100 pricesA 3 =
      portCashOnly := by
  refine zero_risk_entry_rejected cfgZeroFees portCashOnly sigStop100 100 pricesA 3
    ?_ ?_ ?_ ?_
  · norm_num [applyFeesSlippage, cfgZeroFees, sigStop100]
  · norm_num [valuation, portCashOnly]
  · norm_num [valuation, portCashOnly]
  · norm_num [cfgZeroFees, sigStop100]

/-! ## C3: entries over an existing position -/

/-- C3: run step 4 evaluated at the failing input.  With a bracket
position from another strategy on `"A"` the entry is rejected (portfolio
unchanged) — that half of the claim holds.  But with a `pm_rebalance`
holding of 5 units of `"A"`, the entry is allowed and then *replaces* the
holding: the resulting position has only the freshly sized quantity 3
(`"donchian_breakout"`), the previously held 5 units are discarded with no
cash credit (cash only drops by the new notional 300, from 1000 to 700),
instead of being topped up to 8. -/
theorem entry_overwrites_pm_holding :
    applyEntrySignal cfgRpt10 portBrA sigA 100 pricesA 9 = portBrA ∧
    (applyEntrySignal cfgRpt10 portPMA sigA 100 pricesA 9).cash = 700 ∧
    lookupPos (applyEntrySignal cfgRpt10 portPMA sigA 100 pricesA 9).positions "A" =
      some ⟨"A", "long", 3, 100, 50, 200, 10, "donchian_breakout", 9⟩ := by
  refine ⟨?_, ?_, ?_⟩ <;>
    norm_num +decide [applyEntrySignal, entryBlocked, sizePosition, valuation,
      lookupPos, insertPos, applyFeesSlippage, cfgRpt10, portPMA, portBrA, sigA,
      pricesA, List.find?]

/-! ## C1: the cash invariant and fill rejection -/

/-- C1 counterexample: a rebalance buy whose desired notional exceeds the
available cash is *capped* at the available cash and filled at the reduced
quantity, not rejected.  Equity is 200 (cash 100 plus a bracket position
worth 100), the target notional for `"A"` at weight 1 is 200 > cash = 100,
yet the rebalance fills 100 units at price 1 (all remaining cash), leaving
cash 0 and a `pm_rebalance` position of 100 units. -/
theorem rebalance_buy_partial_fill_cex :
    portBracketB.cash = 100 ∧
    valuation portBracketB pricesAB = 200 ∧
    (applyRebalanceSignal cfgZeroFees portBracketB [("A", 1)] ["A", "B"]
      pxAB pxAB 7).cash = 0 ∧
    lookupPos (applyRebalanceSignal cfgZeroFees portBracketB [("A", 1)] ["A", "B"]
      pxAB pxAB 7).positions "A" =
      some ⟨"A", "long", 100, 1, 0, 1000000000000, 0, "pm_rebalance", 7⟩ := by
  refine ⟨?_, ?_, ?_, ?_⟩ <;>
    norm_num +decide [applyRebalanceSignal, sellAllStep, adjustStep, valuation,
      pmQtyOf, lookupPos, insertPos, erasePos, applyFeesSlippage, cfgZeroFees,
      portBracketB, pxAB, pricesAB, List.find?]

/-- The entry fill keeps cash non-negative (the cash-sufficiency guard is
checked before the debit). -/
theorem entry_cash_nonneg (cfg : BTConfig) (port : Portfolio) (s : EntrySignal)
    (raw_px : ℚ) (prices : String → Option ℚ) (ts : ℕ)
    (hcash : 0 ≤ port.cash) :
    0 ≤ (applyEntrySignal cfg port s raw_px prices ts).cash := by
  unfold applyEntrySignal
  dsimp only
  split_ifs with h1 h2 h3 h4
  any_goals exact hcash
  dsimp only
  push_neg at h4
  linarith

/-- A bracket entry whose notional exceeds available cash is rejected
outright: the portfolio is returned unchanged. -/
theorem entry_rejected_when_notional_exceeds_cash (cfg : BTConfig) (port : Portfolio)
    (s : EntrySignal) (raw_px : ℚ) (prices : String → Option ℚ) (ts : ℕ)
    (hover : port.cash <
      sizePosition cfg (valuation port prices) (applyFeesSlippage cfg raw_px "buy")
        s.stop * applyFeesSlippage cfg raw_px "buy") :
    applyEntrySignal cfg port s raw_px prices ts = port := by
  unfold applyEntrySignal
  dsimp only
  split_ifs with h1 h2 h3
  all_goals rfl

/-- The bracket-exit fill keeps cash non-negative when the threshold
price is non-negative and fees plus slippage are at most 100%. -/
theorem exit_cash_nonneg (cfg : BTConfig) (port : Portfolio) (p : String)
    (fill_px : ℚ)
    (hinv : cashQtyInv port)
    (hpx : 0 ≤ fill_px)
    (hbps : (cfg.exec_model.fee_bps + cfg.exec_model.slippage_bps) / 10000 ≤ 1) :
    0 ≤ (applyBracketExit cfg port p fill_px).cash := by
  unfold applyBracketExit
  cases hl : lookupPos port.positions p with
  | none => exact hinv.1
  | some pos =>
    dsimp only
    have hq : 0 ≤ pos.qty := hinv.2 (p, pos) (lookupPos_eq_some_mem hl)
    have hs : 0 ≤ applyFeesSlippage cfg fill_px "sell" :=
      applyFeesSlippage_sell_nonneg cfg fill_px hpx hbps
    have := mul_nonneg hq hs
    linarith [hinv.1]

/-- A rebalance sell-everything leg preserves the cash/quantity
invariant. -/
theorem cashQtyInv_sellAllStep (cfg : BTConfig) (fillRaw : String → ℚ)
    (targetKeys : List String) (pmQty : String → ℚ) (port : Portfolio) (p : String)
    (hinv : cashQtyInv port)
    (hraw : 0 ≤ fillRaw p)
    (hbps : (cfg.exec_model.fee_bps + cfg.exec_model.slippage_bps) / 10000 ≤ 1) :
    cashQtyInv (sellAllStep cfg fillRaw targetKeys pmQty port p) := by
  obtain ⟨hc, hq⟩ := hinv
  unfold sellAllStep
  split_ifs with h1
  · cases hl : lookupPos port.positions p with
    | none => exact ⟨hc, hq⟩
    | some pos =>
      dsimp only
      split_ifs with h2
      · have hqty : 0 ≤ pos.qty := hq (p, pos) (lookupPos_eq_some_mem hl)
        have hs : 0 ≤ applyFeesSlippage cfg (fillRaw p) "sell" :=
          applyFeesSlippage_sell_nonneg cfg (fillRaw p) hraw hbps
        refine ⟨?_, ?_⟩
        · dsimp only
          have := mul_nonneg hqty hs
          linarith
        · intro q hmem
          exact hq q (mem_of_mem_erasePos hmem)
      · exact ⟨hc, hq⟩
  · exact ⟨hc, hq⟩

/-- A rebalance adjustment leg (buy capped by cash, or sell) preserves
the cash/quantity invariant. -/
theorem cashQtyInv_adjustStep (cfg : BTConfig) (fillRaw : String → ℚ)
    (pmNotional : String → ℚ) (ts : ℕ) (port : Portfolio) (pt : String × ℚ)
    (hinv : cashQtyInv port)
    (hraw : 0 < fillRaw pt.1)
    (hbps0 : 0 ≤ (cfg.exec_model.fee_bps + cfg.exec_model.slippage_bps) / 10000)
    (hbps1 : (cfg.exec_model.fee_bps + cfg.exec_model.slippage_bps) / 10000 ≤ 1) :
    cashQtyInv (adjustStep cfg fillRaw pmNotional ts port pt) := by
  obtain ⟨hc, hq⟩ := hinv
  have hF : 0 < applyFeesSlippage cfg (fillRaw pt.1) "buy" :=
    applyFeesSlippage_buy_pos cfg (fillRaw pt.1) hraw hbps0
  have hS : 0 ≤ applyFeesSlippage cfg (fillRaw pt.1) "sell" :=
    applyFeesSlippage_sell_nonneg cfg (fillRaw pt.1) (le_of_lt hraw) hbps1
  have hbuycash : ∀ d : ℚ,
      max 0 (min d (port.cash / applyFeesSlippage cfg (fillRaw pt.1) "buy")) *
        applyFeesSlippage cfg (fillRaw pt.1) "buy" ≤ port.cash := by
    intro d
    have hm : 0 ≤ port.cash / applyFeesSlippage cfg (fillRaw pt.1) "buy" :=
      div_nonneg hc (le_of_lt hF)
    have hqle : max 0 (min d (port.cash / applyFeesSlippage cfg (fillRaw pt.1) "buy"))
        ≤ port.cash / applyFeesSlippage cfg (fillRaw pt.1) "buy" :=
      max_le hm (min_le_right _ _)
    have h5 := mul_le_mul_of_nonneg_right hqle (le_of_lt hF)
    rwa [div_mul_cancel₀ _ (ne_of_gt hF)] at h5
  unfold adjustStep
  dsimp only
  cases hl : lookupPos port.positions pt.1 with
  | none =>
    dsimp only
    rw [if_pos (le_refl (0 : ℚ))]
    split_ifs with h1 h2 h3
    · exact ⟨hc, hq⟩
    · exact ⟨hc, hq⟩
    · push_neg at h3
      refine ⟨?_, ?_⟩
      · dsimp only
        have := hbuycash ((pt.2 - pmNotional pt.1) /
          applyFeesSlippage cfg (fillRaw pt.1) "buy")
        linarith
      · intro q hmem
        rcases mem_insertPos hmem with hold | hnew
        · exact hq q hold
        · subst hnew
          exact le_of_lt h3.2
    · exact ⟨hc, hq⟩
  | some pos =>
    dsimp only
    have hposqty : 0 ≤ pos.qty := hq (pt.1, pos) (lookupPos_eq_some_mem hl)
    by_cases hpm : pos.name = "pm_rebalance"
    · rw [if_pos hpm, if_pos hpm]
      split_ifs with h1 h2 h3 h4 h5 h6
      · exact ⟨hc, hq⟩
      · exact ⟨hc, hq⟩
      · -- buy accepted: top-up of the pm holding
        push_neg at h3
        refine ⟨?_, ?_⟩
        · dsimp only
          have := hbuycash ((pt.2 - pmNotional pt.1) /
            applyFeesSlippage cfg (fillRaw pt.1) "buy")
          linarith
        · intro q hmem
          rcases mem_insertPos hmem with hold | hnew
          · exact hq q hold
          · subst hnew
            dsimp only
            have := h3.2
            linarith
      · exact ⟨hc, hq⟩
      · exact ⟨hc, hq⟩
      · -- sell accepted: holding removed as dust
        push_neg at h5
        refine ⟨?_, ?_⟩
        · dsimp only
          have := mul_nonneg (le_of_lt h5.2) hS
          linarith
        · intro q hmem
          exact hq q (mem_of_mem_erasePos hmem)
      · -- sell accepted: holding reduced
        push_neg at h5 h6
        refine ⟨?_, ?_⟩
        · dsimp only
          have := mul_nonneg (le_of_lt h5.2) hS
          linarith
        · intro q hmem
          rcases mem_insertPos hmem with hold | hnew
          · exact hq q hold
          · subst hnew
            dsimp only
            linarith
    · rw [if_neg hpm, if_neg hpm]
      rw [if_pos (le_refl (0 : ℚ))]
      split_ifs with h1 h2 h3
      · exact ⟨hc, hq⟩
      · exact ⟨hc, hq⟩
      · -- buy accepted: non-pm position overwritten by a fresh pm position
        push_neg at h3
        refine ⟨?_, ?_⟩
        · dsimp only
          have := hbuycash ((pt.2 - pmNotional pt.1) /
            applyFeesSlippage cfg (fillRaw pt.1) "buy")
          linarith
        · intro q hmem
          rcases mem_insertPos hmem with hold | hnew
          · exact hq q hold
          · subst hnew
            exact le_of_lt h3.2
      · exact ⟨hc, hq⟩

/-- The sell-everything loop preserves the cash/quantity invariant. -/
theorem cashQtyInv_foldl_sellAll (cfg : BTConfig) (fillRaw : String → ℚ)
    (targetKeys : List String) (pmQty : String → ℚ) (ps : List String)
    (port : Portfolio) (hinv : cashQtyInv port)
    (hraw : ∀ a, 0 ≤ fillRaw a)
    (hbps : (cfg.exec_model.fee_bps + cfg.exec_model.slippage_bps) / 10000 ≤ 1) :
    cashQtyInv (ps.foldl (sellAllStep cfg fillRaw targetKeys pmQty) port) := by
  induction ps generalizing port with
  | nil => simpa using hinv
  | cons p ps ih =>
    rw [List.foldl_cons]
    exact ih _ (cashQtyInv_sellAllStep cfg fillRaw targetKeys pmQty port p hinv
      (hraw p) hbps)

/-- The adjust-towards-target loop preserves the cash/quantity
invariant. -/
theorem cashQtyInv_foldl_adjust (cfg : BTConfig) (fillRaw : String → ℚ)
    (pmNotional : String → ℚ) (ts : ℕ) (pts : List (String × ℚ))
    (port : Portfolio) (hinv : cashQtyInv port)
    (hraw : ∀ a, 0 < fillRaw a)
    (hbps0 : 0 ≤ (cfg.exec_model.fee_bps + cfg.exec_model.slippage_bps) / 10000)
    (hbps1 : (cfg.exec_model.fee_bps + cfg.exec_model.slippage_bps) / 10000 ≤ 1) :
    cashQtyInv (pts.foldl (adjustStep cfg fillRaw pmNotional ts) port) := by
  induction pts generalizing port with
  | nil => simpa using hinv
  | cons pt pts ih =>
    rw [List.foldl_cons]
    exact ih _ (cashQtyInv_adjustStep cfg fillRaw pmNotional ts port pt hinv
      (hraw pt.1) hbps0 hbps1)

/-- A whole rebalance signal preserves the cash/quantity invariant. -/
theorem cashQtyInv_applyRebalanceSignal (cfg : BTConfig) (port : Portfolio)
    (tw : List (String × ℚ)) (products : List String)
    (closePx fillRaw : String → ℚ) (ts : ℕ)
    (hinv : cashQtyInv port)
    (hraw : ∀ a, 0 < fillRaw a)
    (hbps0 : 0 ≤ (cfg.exec_model.fee_bps + cfg.exec_model.slippage_bps) / 10000)
    (hbps1 : (cfg.exec_model.fee_bps + cfg.exec_model.slippage_bps) / 10000 ≤ 1) :
    cashQtyInv (applyRebalanceSignal cfg port tw products closePx fillRaw ts) := by
  unfold applyRebalanceSignal
  dsimp only
  exact cashQtyInv_foldl_adjust cfg fillRaw _ ts _ _
    (cashQtyInv_foldl_sellAll cfg fillRaw _ _ products port hinv
      (fun a => le_of_lt (hraw a)) hbps1)
    hraw hbps0 hbps1

/-- The final-liquidation loop only credits cash, keeping it
non-negative. -/
theorem liquidate_foldl_cash_nonneg (cfg : BTConfig) (pricesF : String → ℚ)
    (L : List (String × Position)) (acc : Portfolio)
    (hacc : 0 ≤ acc.cash)
    (hL : ∀ q ∈ L, 0 ≤ q.2.qty)
    (hpx : ∀ a, 0 ≤ pricesF a)
    (hbps : (cfg.exec_model.fee_bps + cfg.exec_model.slippage_bps) / 10000 ≤ 1) :
    0 ≤ (L.foldl (liquidateOne cfg pricesF) acc).cash := by
  induction L generalizing acc with
  | nil => simpa using hacc
  | cons q L ih =>
    rw [List.foldl_cons]
    apply ih
    · unfold liquidateOne
      dsimp only
      have h1 : 0 ≤ q.2.qty := hL q (List.mem_cons_self q L)
      have h2 : 0 ≤ applyFeesSlippage cfg (pricesF q.1) "sell" :=
        applyFeesSlippage_sell_nonneg cfg (pricesF q.1) (hpx q.1) hbps
      have := mul_nonneg h1 h2
      linarith
    · intro r hr
      exact hL r (List.mem_cons_of_mem q hr)

/-- C1 corrected: under non-negative reference prices and a total
fee-plus-slippage rate between 0 and 100%, cash stays non-negative after
every fill operation — bracket entry, bracket exit, an entire rebalance
signal (all its sell and buy legs), and final liquidation — and a bracket
entry whose notional exceeds the available cash is rejected outright,
leaving the portfolio unchanged.  (A rebalance buy in the same situation
is instead capped at the available cash and partially filled; see the
counterexample.) -/
theorem fills_preserve_cash_nonneg
    (cfg : BTConfig) (port : Portfolio) (s : EntrySignal) (raw_px : ℚ)
    (prices : String → Option ℚ) (p : String) (fill_px : ℚ)
    (tw : List (String × ℚ)) (products : List String)
    (closePx fillRaw pricesF : String → ℚ) (ts : ℕ)
    (hinv : cashQtyInv port)
    (hbps0 : 0 ≤ (cfg.exec_model.fee_bps + cfg.exec_model.slippage_bps) / 10000)
    (hbps1 : (cfg.exec_model.fee_bps + cfg.exec_model.slippage_bps) / 10000 ≤ 1)
    (hexit : 0 ≤ fill_px)
    (hfillRaw : ∀ a, 0 < fillRaw a)
    (hpricesF : ∀ a, 0 ≤ pricesF a) :
    0 ≤ (applyEntrySignal cfg port s raw_px prices ts).cash ∧
    0 ≤ (applyBracketExit cfg port p fill_px).cash ∧
    0 ≤ (applyRebalanceSignal cfg port tw products closePx fillRaw ts).cash ∧
    0 ≤ (finalLiquidation cfg port pricesF).cash ∧
    (port.cash < sizePosition cfg (valuation port prices)
        (applyFeesSlippage cfg raw_px "buy") s.stop *
        applyFeesSlippage cfg raw_px "buy" →
      applyEntrySignal cfg port s raw_px prices ts = port) :=
  ⟨entry_cash_nonneg cfg port s raw_px prices ts hinv.1,
   exit_cash_nonneg cfg port p fill_px hinv hexit hbps1,
   (cashQtyInv_applyRebalanceSignal cfg port tw products closePx fillRaw ts hinv
     hfillRaw hbps0 hbps1).1,
   liquidate_foldl_cash_nonneg cfg pricesF port.positions port hinv.1 hinv.2
     hpricesF hbps1,
   fun hover => entry_rejected_when_notional_exceeds_cash cfg port s raw_px prices
     ts hover⟩

/-- Witness for the amended C1 at the concrete fixture: zero fees, the
cash-100 portfolio with a bracket position on `"B"`, an entry signal, a
bracket exit on `"B"` at price 5, a rebalance to weight 1 on `"A"`, and a
final liquidation at `pxAB`. -/
theorem fills_preserve_cash_nonneg_wit :
    0 ≤ (applyEntrySignal cfgZeroFees portBracketB sigA 100 pricesAB 7).cash ∧
    0 ≤ (applyBracketExit cfgZeroFees portBracketB "B" 5).cash ∧
    0 ≤ (applyRebalanceSignal cfgZeroFees portBracketB [("A", 1)] ["A", "B"]
      pxAB pxAB 7).cash ∧
    0 ≤ (finalLiquidation cfgZeroFees portBracketB pxAB).cash := by
  have h := fills_preserve_cash_nonneg cfgZeroFees portBracketB sigA 100 pricesAB
    "B" 5 [("A", 1)] ["A", "B"] pxAB pxAB pxAB 7
    (by constructor
        · norm_num [portBracketB]
        · intro q hq
          simp only [portBracketB, List.mem_singleton] at hq
          subst hq
          norm_num)
    (by norm_num [cfgZeroFees])
    (by norm_num [cfgZeroFees])
    (by norm_num)
    (by intro a
        by_cases ha : a = "A" <;> simp [pxAB, ha])
    (by intro a
        by_cases ha : a = "A" <;> simp [pxAB, ha])
  exact ⟨h.1, h.2.1, h.2.2.1, h.2.2.2.1⟩

/-! ## C10: the "entry" column lookup -/

/-- C10: whenever `_price_at(product, t, "entry")` is reached with an
existing window — as run step 4 and every rebalance leg do — the same-bar
`CLOSE` fill policy falls through to the `w["entry"]` column access, and
the aligned frames carry only the five OHLCV columns, so the lookup
returns `KeyError` instead of the bar's close price; the same happens
under `NEXT_OPEN` when no next bar exists (`t+1` not below the index
length), so a fill attempted there aborts the run. -/
theorem priceAt_entry_keyerror (cfg : BTConfig) (portal : List (String × List Bar))
    (product : String) (tIdx : ℕ)
    (hfound : ∃ b, windowLast portal product tIdx = .ok b) :
    (cfg.exec_model.fill_when = FillWhen.close →
      priceAt cfg portal product tIdx "entry" = .error "KeyError") ∧
    (¬ tIdx + 1 < timeIndexLen portal →
      priceAt cfg portal product tIdx "entry" = .error "KeyError") := by
  obtain ⟨b, hb⟩ := hfound
  have hbar : barField b "entry" = .error "KeyError" := by
    unfold barField
    norm_num +decide
  constructor
  · intro hclose
    unfold priceAt
    rw [hb]
    dsimp only
    rw [if_neg (by simp [hclose])]
    exact hbar
  · intro hlast
    unfold priceAt
    rw [hb]
    dsimp only
    rw [if_neg (by simp [hlast])]
    exact hbar

/-- Witness for C10: a one-bar portal, under the close policy and under
the next-open policy at the final bar. -/
theorem priceAt_entry_keyerror_wit :
    priceAt cfgCloseFill portalA "A" 0 "entry" = .error "KeyError" ∧
    priceAt cfgZeroFees portalA "A" 0 "entry" = .error "KeyError" := by
  have hw : windowLast portalA "A" 0 = .ok barW := by
    norm_num +decide [windowLast, portalA, List.find?]
  have h1 := priceAt_entry_keyerror cfgCloseFill portalA "A" 0 ⟨barW, hw⟩
  have h2 := priceAt_entry_keyerror cfgZeroFees portalA "A" 0 ⟨barW, hw⟩
  exact ⟨h1.1 rfl, h2.2 (by norm_num [timeIndexLen, portalA])⟩

/-! ## C8: loader behaviour on an empty intersection -/

/-- C8 counterexample: two assets with non-empty but disjoint timestamp
sets.  The loader does not raise: it silently returns Ok with both frames
reindexed to the empty intersection (so the run starts with an empty time
index and only fails later, and no `InsufficientDataError` exists in the
code). -/
theorem load_empty_intersection_ok_cex :
    loadPortal [("A", [(0, barW)]), ("B", [(1, barW)])] none none =
      .ok [("A", []), ("B", [])] := by
  norm_num +decide [loadPortal, fetchedNonempty, commonIdx, idxIntersection,
    reindexDropna, clipIdx, List.find?]

/-- C8 amended: the only load-time error is
`RuntimeError("No price series loaded.")`, raised exactly when every
requested asset's fetch came back empty; an empty intersection of
non-empty series is not detected at load time — the frames are reindexed
to the empty index and returned. -/
theorem loadPortal_error_iff_all_empty (fetched : List (String × List (ℕ × Bar)))
    (start stop : Option ℕ) :
    (loadPortal fetched start stop = .error "No price series loaded.") ↔
      ∀ q ∈ fetched, q.2 = [] := by
  unfold loadPortal
  by_cases h : (fetchedNonempty fetched).isEmpty
  · rw [if_pos h]
    unfold fetchedNonempty at h
    rw [List.isEmpty_iff, List.filter_eq_nil_iff] at h
    simp only [true_iff]
    intro q hq
    have := h q hq
    simpa using this
  · rw [if_neg h]
    dsimp only
    constructor
    · intro hcontra
      exact absurd hcontra (by simp)
    · intro hall
      exfalso
      apply h
      unfold fetchedNonempty
      rw [List.isEmpty_iff, List.filter_eq_nil_iff]
      intro a ha
      simp [hall a ha]

/-! ## C9: the Calmar ratio -/

/-- C9 counterexample: a flat equity curve `[100, 100]` has maximum
drawdown 0 (no drawdown ever occurred); `_drawdown_curve` produces
`np.inf`, but the Calmar entry in the metrics result that
`compute_metrics` returns is `np.nan` (non-finite values are replaced by
NaN), not +∞. -/
theorem metrics_calmar_nan_cex :
    drawdownCalmar 100 [100] = PyVal.pinf ∧
    metricsCalmar 100 [100] = PyVal.nan ∧
    PyVal.nan ≠ PyVal.pinf := by
  refine ⟨?_, ?_, by simp⟩ <;>
    norm_num +decide [metricsCalmar, drawdownCalmar, drawdownMax, List.scanl]

/-- C9 amended: when the maximum drawdown is ≥ 0, `_drawdown_curve`'s
Calmar is +∞ and the metrics result reports NaN; when it is negative, the
metrics Calmar is `total_return / |max_drawdown|` rounded to three
places. -/
theorem metricsCalmar_spec (x : ℚ) (xs : List ℚ) :
    (0 ≤ drawdownMax x xs →
      drawdownCalmar x xs = PyVal.pinf ∧ metricsCalmar x xs = PyVal.nan) ∧
    (drawdownMax x xs < 0 →
      drawdownCalmar x xs =
        PyVal.num ((xs.getLastD x / x - 1) / |drawdownMax x xs|) ∧
      metricsCalmar x xs =
        PyVal.num (pyRound3 ((xs.getLastD x / x - 1) / |drawdownMax x xs|))) := by
  constructor
  · intro h
    have hnot : ¬ drawdownMax x xs < 0 := not_lt.mpr h
    unfold metricsCalmar drawdownCalmar
    dsimp only
    rw [if_neg hnot]
    exact ⟨rfl, rfl⟩
  · intro h
    unfold metricsCalmar drawdownCalmar
    dsimp only
    rw [if_pos h]
    exact ⟨rfl, rfl⟩

/-- Witness for the amended C9 at the flat curve `[100, 100]` (drawdown
0) and the falling curve `[100, 50]` (drawdown −1/2). -/
theorem metricsCalmar_spec_wit :
    drawdownCalmar 100 [100] = PyVal.pinf ∧
    metricsCalmar 100 [100] = PyVal.nan ∧
    metricsCalmar 100 [50] =
      PyVal.num (pyRound3
        ((List.getLastD [50] 100 / 100 - 1) / |drawdownMax 100 [50]|)) := by
  have h1 := (metricsCalmar_spec 100 [100]).1
    (by norm_num [drawdownMax, List.scanl])
  have h2 := (metricsCalmar_spec 100 [50]).2
    (by norm_num [drawdownMax, List.scanl])
  exact ⟨h1.1, h1.2, h2.2⟩

end PortfolioBacktest
